import Mathlib

/-!
Verification of the MicrobiomePdfAssistant core against its specification.

The Python sources are shallow-embedded over `List Char` (document text,
message content) and a record model of the SQLAlchemy tables.  External
collaborators (the Discord transport, PyPDF2 decoding, the OpenAI embedding
and completion calls, the pgvector index) are passed in as explicit
parameters; everything else is translated from the source files
`pdf_processor.py`, `bot.py`, `models.py`, `config.py`.
-/

set_option maxRecDepth 20000

/-- config.py: CHUNK_SIZE, characters per chunk for PDF processing. -/
def CHUNK_SIZE : Nat := 1000

/-- config.py: CHUNK_OVERLAP, overlap between chunks. -/
def CHUNK_OVERLAP : Nat := 200

/-- config.py: MAX_CHUNKS_PER_QUERY, maximum relevant chunks per context. -/
def MAX_CHUNKS_PER_QUERY : Nat := 5

/-- Whitespace test for the ASCII subset of the Python regex class of
whitespace characters, which is also the set stripped by str.strip. -/
def isPySpace (c : Char) : Bool :=
  c = ' ' || c = '\t' || c = '\n' || c = '\r' || c = '\x0b' || c = '\x0c'

/-- Python str.strip over a character list: remove leading and trailing
whitespace. -/
def pyStrip (l : List Char) : List Char :=
  ((l.dropWhile isPySpace).reverse.dropWhile isPySpace).reverse

/-- One pass over the text keeping the last index i in the half-open range
from s to e whose character equals c. -/
def rfindAux (c : Char) (s e : Nat) : List Char → Nat → Option Nat → Option Nat
  | [], _, acc => acc
  | x :: xs, i, acc =>
    rfindAux c s e xs (i + 1) (if s ≤ i ∧ i < e ∧ x = c then some i else acc)

/-- Python str.rfind of a single character with slice bounds s and e: the
greatest index i with s ≤ i < e holding c, if any (Python returns -1 when
there is none; the comparisons in chunk_text treat -1 as a failed search,
which the none case models). -/
def rfindChar (t : List Char) (c : Char) (s e : Nat) : Option Nat :=
  rfindAux c s e t 0 none

/-- pdf_processor.py chunk_text lines 90-94: the paragraph-break fallback,
preferring the last newline in the window when it lies past the window
midpoint. -/
def chunkParaEnd (S : Nat) (t : List Char) (start e0 : Nat) : Nat :=
  match rfindChar t '\n' start e0 with
  | some pb => if start + S / 2 < pb then pb else e0
  | none => e0

/-- pdf_processor.py chunk_text lines 81-94: the end position chosen for the
window starting at start; the last sentence terminator past the midpoint,
else the paragraph fallback, else start + S. -/
def chunkEnd (S : Nat) (t : List Char) (start : Nat) : Nat :=
  if start + S < t.length then
    match rfindChar t '.' start (start + S) with
    | some sb => if start + S / 2 < sb then sb + 1 else chunkParaEnd S t start (start + S)
    | none => chunkParaEnd S t start (start + S)
  else start + S

/-- One chunk record produced by PDFProcessor.chunk_text. -/
structure ChunkData where
  chunk_idx : Nat
  content : List Char
  start_pos : Nat
  end_pos : Nat
deriving DecidableEq

/-- pdf_processor.py chunk_text lines 80-112: the while loop, with explicit
fuel; each iteration records the stripped window when non-empty and advances
start to max (start + S - O) e.  Fuel t.length + 1 is enough whenever
1 ≤ S, which the fuel-indifference theorem below makes precise. -/
def chunkTextAux (S O : Nat) (t : List Char) : Nat → Nat → Nat → List ChunkData
  | 0, _, _ => []
  | fuel + 1, start, idx =>
    if start < t.length then
      if pyStrip ((t.drop start).take (chunkEnd S t start - start)) = [] then
        chunkTextAux S O t fuel (max (start + S - O) (chunkEnd S t start)) idx
      else
        ⟨idx, pyStrip ((t.drop start).take (chunkEnd S t start - start)), start, chunkEnd S t start⟩ ::
          chunkTextAux S O t fuel (max (start + S - O) (chunkEnd S t start)) (idx + 1)
    else []

/-- PDFProcessor.chunk_text with explicit chunk size and overlap. -/
def chunkTextP (S O : Nat) (t : List Char) : List ChunkData :=
  chunkTextAux S O t (t.length + 1) 0 0

/-- PDFProcessor.chunk_text at the configured CHUNK_SIZE and CHUNK_OVERLAP. -/
def chunk_text (t : List Char) : List ChunkData :=
  chunkTextP CHUNK_SIZE CHUNK_OVERLAP t

/-- pdf_processor.py clean_text line 34: substitute every run of one or more
whitespace characters by a single space.  A whitespace character followed by
another whitespace character is dropped; the last of a run becomes one
space. -/
def collapseWs : List Char → List Char
  | [] => []
  | c :: rest =>
    if isPySpace c then
      match rest with
      | [] => [' ']
      | c2 :: _ => if isPySpace c2 then collapseWs rest else ' ' :: collapseWs rest
    else c :: collapseWs rest

/-- Match one or more digits followed by a newline at the head of l,
returning the remainder after the newline. -/
def matchDigitsNl (l : List Char) : Option (List Char) :=
  match l with
  | c :: _ =>
    if c.isDigit then
      match l.dropWhile Char.isDigit with
      | d :: rest2 => if d = '\n' then some rest2 else none
      | [] => none
    else none
  | [] => none

/-- pdf_processor.py clean_text line 37: substitute newline, digits, newline
by a single newline, scanning left to right without rescanning replacements.
Fuel bounded by the input length. -/
def subNlNumNlAux : Nat → List Char → List Char
  | 0, l => l
  | _ + 1, [] => []
  | fuel + 1, c :: rest =>
    if c = '\n' then
      match matchDigitsNl rest with
      | some rest2 => '\n' :: subNlNumNlAux fuel rest2
      | none => c :: subNlNumNlAux fuel rest
    else c :: subNlNumNlAux fuel rest

/-- subNlNumNlAux at its sufficient fuel. -/
def subNlNumNl (l : List Char) : List Char :=
  subNlNumNlAux l.length l

/-- Test that position 5 of l starts a digit (the one-or-more-digits part of
the page-number pattern). -/
def pageDigitAt (l : List Char) : Bool :=
  match l.drop 5 with
  | d :: _ => d.isDigit
  | [] => false

/-- pdf_processor.py clean_text line 38: remove every occurrence of the
literal Page followed by a space and one or more digits, scanning left to
right.  Fuel bounded by the input length. -/
def removePageAux : Nat → List Char → List Char
  | 0, l => l
  | _ + 1, [] => []
  | fuel + 1, c :: rest =>
    if ("Page ".data).isPrefixOf (c :: rest) ∧ pageDigitAt (c :: rest) then
      removePageAux fuel (((c :: rest).drop 5).dropWhile Char.isDigit)
    else c :: removePageAux fuel rest

/-- removePageAux at its sufficient fuel. -/
def removePage (l : List Char) : List Char :=
  removePageAux l.length l

/-- PDFProcessor.clean_text (pdf_processor.py lines 31-43): whitespace
collapse, newline-digits-newline substitution, page-number removal,
underscore replacement, strip. -/
def clean_text (t : List Char) : List Char :=
  let t1 := collapseWs t
  let t2 := subNlNumNl t1
  let t3 := removePage t2
  let t4 := t3.map (fun c => if c = '_' then ' ' else c)
  pyStrip t4

/-- chunkEnd with the paragraph-break fallback branch removed, used to state
that the branch is unreachable on ingested input. -/
def chunkEndNoPara (S : Nat) (t : List Char) (start : Nat) : Nat :=
  if start + S < t.length then
    match rfindChar t '.' start (start + S) with
    | some sb => if start + S / 2 < sb then sb + 1 else start + S
    | none => start + S
  else start + S

/-- chunkTextAux with the paragraph-break fallback branch removed. -/
def chunkTextAuxNoPara (S O : Nat) (t : List Char) : Nat → Nat → Nat → List ChunkData
  | 0, _, _ => []
  | fuel + 1, start, idx =>
    if start < t.length then
      if pyStrip ((t.drop start).take (chunkEndNoPara S t start - start)) = [] then
        chunkTextAuxNoPara S O t fuel (max (start + S - O) (chunkEndNoPara S t start)) idx
      else
        ⟨idx, pyStrip ((t.drop start).take (chunkEndNoPara S t start - start)), start,
            chunkEndNoPara S t start⟩ ::
          chunkTextAuxNoPara S O t fuel (max (start + S - O) (chunkEndNoPara S t start)) (idx + 1)
    else []

/-- chunk_text with the paragraph-break fallback branch removed. -/
def chunkTextNoPara (t : List Char) : List ChunkData :=
  chunkTextAuxNoPara CHUNK_SIZE CHUNK_OVERLAP t (t.length + 1) 0 0

/-- Python str.split on a non-empty separator, cutting at each leftmost
non-overlapping occurrence.  Fuel bounded by the input length (each cut or
step consumes at least one character for a non-empty separator). -/
def splitOnSepAux (sep : List Char) : Nat → List Char → List (List Char)
  | 0, l => [l]
  | fuel + 1, l =>
    match l with
    | [] => [[]]
    | c :: rest =>
      if sep.isPrefixOf l then
        [] :: splitOnSepAux sep fuel (l.drop sep.length)
      else
        match splitOnSepAux sep fuel rest with
        | [] => [[c]]
        | s :: ss => (c :: s) :: ss

/-- splitOnSepAux at its sufficient fuel. -/
def splitOnSep (sep : List Char) (l : List Char) : List (List Char) :=
  splitOnSepAux sep l.length l

/-- State of the response-splitting loop of handle_thread_message: the
finished chunks and the chunk being accumulated. -/
structure SegState where
  chunks : List (List Char)
  current : List Char
deriving DecidableEq

/-- bot.py lines 296-299 and 305-308: when adding the next piece would pass
the 1950-character buffer, emit the stripped current chunk if non-empty. -/
def segFlush (st : SegState) (pieceLen : Nat) : SegState :=
  if st.current.length + pieceLen + 2 > 1950 then
    if st.current ≠ [] then ⟨st.chunks ++ [pyStrip st.current], []⟩ else st
  else st

/-- bot.py lines 304-309: one sentence step of the oversized-paragraph
sub-loop. -/
def segSentenceStep (st : SegState) (s : List Char) : SegState :=
  let st1 := segFlush st s.length
  ⟨st1.chunks, st1.current ++ s ++ (". ".data)⟩

/-- bot.py lines 294-311: one paragraph step of the splitting loop. -/
def segParaStep (st : SegState) (p : List Char) : SegState :=
  let st1 := segFlush st p.length
  if p.length > 1950 then
    (splitOnSep (". ".data) p).foldl segSentenceStep st1
  else
    ⟨st1.chunks, st1.current ++ p ++ ("\n\n".data)⟩

/-- bot.py lines 287-315: the splitting branch of handle_thread_message for
responses over 2000 characters. -/
def segmentLong (content : List Char) : List (List Char) :=
  let paragraphs := splitOnSep ("\n\n".data) content
  let st := paragraphs.foldl segParaStep ⟨[], []⟩
  if pyStrip st.current ≠ [] then st.chunks ++ [pyStrip st.current] else st.chunks

/-- bot.py lines 282-322: the outbound segments emitted for one generated
response; a short response is replied verbatim, a long one is split, and an
empty split falls back to a placeholder notice. -/
def segmentResponse (content : List Char) : List (List Char) :=
  if content.length ≤ 2000 then [content]
  else
    let chunks := segmentLong content
    if chunks = [] then [("Response too long to display.".data)] else chunks

/-- models.py MessageRole. -/
inductive MessageRole
  | USER
  | BOT
deriving DecidableEq

/-- models.py MessageRole enum values. -/
def MessageRole.value : MessageRole → String
  | .USER => "user"
  | .BOT => "bot"

/-- models.py User (the columns the handlers read or write). -/
structure UserRec where
  id : Nat
  username : String
deriving DecidableEq

/-- models.py Report (the columns the handlers read or write).  The metadata
mapping is an association list of keys to values. -/
structure ReportRec where
  id : Nat
  user_id : Nat
  thread_id : Nat
  sample_date : Option String
  report_metadata : List (String × String)
  conversation_stage : String
deriving DecidableEq

/-- models.py ReportChunk (the columns the handlers read or write). -/
structure ChunkRec where
  report_id : Nat
  chunk_idx : Nat
  content : List Char
  embedding : List Rat
deriving DecidableEq

/-- models.py Message (the columns the handlers read or write). -/
structure MessageRec where
  id : Nat
  report_id : Nat
  user_id : Option Nat
  role : String
  content : List Char
  input_tokens : Nat
  output_tokens : Nat
  cost_usd : Rat
  retrieved_chunk_ids : List Nat
deriving DecidableEq

/-- The database state: the four tables. -/
structure DBState where
  users : List UserRec
  reports : List ReportRec
  chunks : List ChunkRec
  messages : List MessageRec
deriving DecidableEq

/-- Result of one completion call of the generation collaborator
(OpenAIClient.create_microbiome_analysis). -/
structure GenOut where
  content : List Char
  input_tokens : Nat
  output_tokens : Nat
  cost_usd : Rat
deriving DecidableEq

/-- BiomeBot.save_message (bot.py lines 88-107): append one Message row. -/
def save_message (db : DBState) (message_id report_id : Nat) (user_id : Option Nat)
    (role : String) (content : List Char) (input_tokens output_tokens : Nat)
    (cost_usd : Rat) (chunk_ids : List Nat) : DBState :=
  { db with messages := db.messages ++
      [⟨message_id, report_id, user_id, role, content, input_tokens, output_tokens, cost_usd, chunk_ids⟩] }

/-- BiomeBot.ensure_user_exists (bot.py lines 29-40). -/
def ensure_user_exists (db : DBState) (uid : Nat) (username : String) : DBState :=
  if db.users.any (fun u => u.id == uid) then db
  else { db with users := db.users ++ [⟨uid, username⟩] }

/-- BiomeBot.get_thread_conversation_history (bot.py lines 42-55): the
messages of the report ordered by id, as role and content pairs. -/
def get_thread_conversation_history (db : DBState) (report_id : Nat) : List (String × List Char) :=
  (List.insertionSort (fun a b => a.id ≤ b.id)
    (db.messages.filter (fun m => m.report_id == report_id))).map (fun m => (m.role, m.content))

/-- BiomeBot.find_relevant_chunks (bot.py lines 57-86).  embedResult is the
outcome of openai_client.get_embedding for the query, vectorOk tells whether
the pgvector similarity query succeeds, and dist stands for the database
cosine_distance operator on stored embeddings. -/
def find_relevant_chunks (dist : List Rat → List Rat → Rat)
    (embedResult : Except String (List Rat)) (vectorOk : Bool)
    (db : DBState) (report_id : Nat) : List (List Char) :=
  match embedResult with
  | .error _ => []
  | .ok q =>
    let rchunks := db.chunks.filter (fun ch => ch.report_id == report_id)
    if vectorOk then
      ((List.insertionSort (fun a b => dist a.embedding q ≤ dist b.embedding q) rchunks).take
        MAX_CHUNKS_PER_QUERY).map (fun ch => ch.content)
    else
      ((List.insertionSort (fun a b => a.chunk_idx ≤ b.chunk_idx) rchunks).take
        MAX_CHUNKS_PER_QUERY).map (fun ch => ch.content)

/-- Lower-case a character list (Python str.lower on the ASCII letters the
compared keyword literals use). -/
def toLowerL (l : List Char) : List Char :=
  l.map Char.toLower

/-- Python substring containment test. -/
def containsSub (pat : List Char) : List Char → Bool
  | [] => pat.isEmpty
  | c :: rest => pat.isPrefixOf (c :: rest) || containsSub pat rest

/-- BiomeBot.check_and_send_followups together with send_actionable_insight
and send_qa_invitation (bot.py lines 348-476).  history is the conversation
history fetched before the current response was generated; insightGen is the
outcome of the generation collaborator for the insight prompt;
relevantChunks is forwarded to that collaborator and so does not affect the
stored state.  Returns the updated database and the extra outbound texts. -/
def check_and_send_followups (db : DBState) (report : ReportRec)
    (history : List (String × List Char)) (_relevantChunks : List (List Char))
    (insightGen : Except String GenOut) (insightMsgId qaMsgId : Nat) :
    DBState × List (List Char) :=
  let recent := history.drop (history.length - 8)
  if recent.length ≥ 4 then
    let botMessages := recent.filter (fun m => m.1 == "bot")
    if botMessages.length ≥ 1 then
      match botMessages.getLast? with
      | some lastBot =>
        let lb := toLowerL lastBot.2
        if containsSub ("executive summary".data) lb
            && !containsSub ("actionable insight".data) lb
            && !containsSub ("feel free to ask".data) lb then
          let step1 :=
            match insightGen with
            | .error _ => (db, ([] : List (List Char)))
            | .ok g =>
              let content :=
                if ("one actionable insight".data).isPrefixOf (toLowerL g.content) then g.content
                else ("One actionable insight\n\n".data) ++ g.content
              (save_message db insightMsgId report.id none "bot" content
                g.input_tokens g.output_tokens g.cost_usd [], [content])
          let qa := "Feel free to ask any questions about your results!".data
          let db2 := save_message step1.1 qaMsgId report.id none "bot" qa 0 0 0 []
          (db2, step1.2 ++ [qa])
        else (db, [])
      | none => (db, [])
    else (db, [])
  else (db, [])

/-- BiomeBot.handle_thread_message (bot.py lines 247-346).  The external
collaborators appear as parameters: dist, embedResult and vectorOk feed
find_relevant_chunks; genResult is the outcome of
openai_client.create_microbiome_analysis (whose stage-keyword prompt
selection happens inside that external completion call); botMsgId,
insightMsgId and qaMsgId are the platform-assigned ids of the outbound
messages.  Returns the updated database and the outbound texts in emission
order. -/
def handle_thread_message (db : DBState) (channelId msgId senderId : Nat)
    (username : String) (content : List Char)
    (dist : List Rat → List Rat → Rat) (embedResult : Except String (List Rat))
    (vectorOk : Bool) (genResult : Except String GenOut)
    (insightGen : Except String GenOut)
    (botMsgId insightMsgId qaMsgId : Nat) : DBState × List (List Char) :=
  match db.reports.find? (fun r => r.thread_id == channelId) with
  | none => (db, [])
  | some report =>
    let db1 := ensure_user_exists db senderId username
    let db2 := save_message db1 msgId report.id (some senderId)
      (MessageRole.USER.value) content 0 0 0 []
    let history := get_thread_conversation_history db2 report.id
    let relevantChunks := find_relevant_chunks dist embedResult vectorOk db2 report.id
    match genResult with
    | .error _ =>
      (db2, [("Sorry, I encountered an error processing your question. Please try again.".data)])
    | .ok g =>
      let segs := segmentResponse g.content
      let db3 := save_message db2 botMsgId report.id none (MessageRole.BOT.value)
        g.content g.input_tokens g.output_tokens g.cost_usd []
      let p := check_and_send_followups db3 report history relevantChunks
        insightGen insightMsgId qaMsgId
      (p.1, segs ++ p.2)

/-- Autoincrement primary key for reports: one more than the largest
existing id. -/
def freshReportId (db : DBState) : Nat :=
  db.reports.foldl (fun m r => max m r.id) 0 + 1

/-- BiomeBot.process_pdf_upload composed with PDFProcessor.process_pdf
(bot.py lines 109-245, pdf_processor.py lines 154-175).  decodedText is the
page text extracted by the external PyPDF2 decoder before cleaning; embed is
the per-chunk outcome of openai_client.get_embedding, none meaning the call
failed and the chunk is skipped; md is the result of extract_metadata (the
external-regex date and lab extraction); formattedDateIntro is the
datetime-formatted date sentence used when md carries a sample date;
newThreadId is the platform-assigned id of the created thread.  Returns the
updated database and the outbound texts. -/
def process_pdf_upload (db : DBState) (authorId : Nat) (username filename : String)
    (uploadMsgId newThreadId botMsgId : Nat) (decodedText : List Char)
    (embed : List Char → Option (List Rat)) (md : List (String × String))
    (formattedDateIntro : List Char) : DBState × List (List Char) :=
  let db1 := ensure_user_exists db authorId username
  let text := clean_text decodedText
  if text = [] then
    (db1, [("Sorry, I could not process your PDF: No text content found in PDF".data)])
  else
    let chunkDatas := chunk_text text
    let rid := freshReportId db1
    let report : ReportRec :=
      { id := rid, user_id := authorId, thread_id := newThreadId,
        sample_date := (md.find? (fun kv => kv.1 == "sample_date")).map (fun kv => kv.2),
        report_metadata := md, conversation_stage := "initial" }
    let db2 := { db1 with reports := db1.reports ++ [report] }
    let newChunks := chunkDatas.filterMap (fun cd =>
      (embed cd.content).map (fun e => ChunkRec.mk rid cd.chunk_idx cd.content e))
    let db3 := { db2 with chunks := db2.chunks ++ newChunks }
    let dateResponse :=
      (if md.any (fun kv => kv.1 == "sample_date") then formattedDateIntro
       else ("Looks like the report date is missing.\nWhen did you take this test? (Month and year is enough.)\n\n".data))
      ++ ("Did you take any antibiotics around the time of the test?".data)
    let db4 := save_message db3 uploadMsgId rid (some authorId)
      (MessageRole.USER.value) (("[PDF Upload: " ++ filename ++ "]").data) 0 0 0 []
    let db5 := save_message db4 botMsgId rid none (MessageRole.BOT.value) dateResponse 0 0 0 []
    (db5, [("Analyzing your microbiome report...".data),
           ("Creating knowledge base from your report...".data), dateResponse])

/-- The wait notice sent when a second upload arrives while one is in
flight (bot.py line 499). -/
def uploadWaitNotice : List Char :=
  "I am still processing your previous upload. Please wait a moment!".data

/-- The processing_users membership test and add of on_message (bot.py lines
498-502), viewed as the acquire operation of the per-user upload guard. -/
def uploadTryAcquire (processing_users : List Nat) (uid : Nat) : Bool × List Nat :=
  if uid ∈ processing_users then (false, processing_users)
  else (true, uid :: processing_users)

/-- The finally-block discard of on_message (bot.py line 506): the release
operation of the per-user upload guard. -/
def uploadRelease (processing_users : List Nat) (uid : Nat) : List Nat :=
  processing_users.filter (fun u => u ≠ uid)

/-- The guarded ingestion section of on_message (bot.py lines 498-507):
reject with the wait notice when the user already holds the guard; otherwise
acquire, run the ingestion pipeline (whose outcome may be success or
failure), and release in the finally block on either path.  Returns the
final guard state, whether the pipeline was entered, and the outbound
notices. -/
def guardedIngest (processing_users : List Nat) (uid : Nat)
    (ingestOutcome : Except String Unit) : List Nat × Bool × List (List Char) :=
  let acq := uploadTryAcquire processing_users uid
  if acq.1 then
    match ingestOutcome with
    | .ok _ => (uploadRelease acq.2 uid, true, [])
    | .error _ => (uploadRelease acq.2 uid, true, [])
  else
    (processing_users, false, [uploadWaitNotice])

/-- An empty database. -/
def dbEmptyEx : DBState := ⟨[], [], [], []⟩

/-- A report of user 7 living in thread 42, freshly created (default stage,
empty metadata), used by the concrete runs below. -/
def reportEx : ReportRec := ⟨1, 7, 42, none, [], "initial"⟩

/-- Database holding reportEx and its owner. -/
def dbC1 : DBState := ⟨[⟨7, "alice"⟩], [reportEx], [], []⟩

/-- A generated reply for the concrete runs. -/
def genEx : GenOut := ⟨"Noted.".data, 10, 5, 0⟩

/-- A pre-existing chunk row of reportEx. -/
def cOldC2 : ChunkRec := ⟨1, 0, "old chunk".data, [1]⟩

/-- A pre-existing message row of reportEx. -/
def mOldC2 : MessageRec := ⟨50, 1, some 7, "user", "hi".data, 0, 0, 0, []⟩

/-- Database holding reportEx together with one chunk and one message. -/
def dbC2 : DBState := ⟨[⟨7, "alice"⟩], [reportEx], [cOldC2], [mOldC2]⟩

/-- Database holding reportEx together with two chunk rows. -/
def dbC3 : DBState :=
  ⟨[⟨7, "alice"⟩], [reportEx], [⟨1, 0, "first chunk".data, [1]⟩, ⟨1, 1, "second chunk".data, [2]⟩], []⟩

/-- A cosine-distance stand-in for concrete runs. -/
def distEx : List Rat → List Rat → Rat := fun _ _ => 0

/-- A generated response of exactly 2001 characters with no paragraph break
and no sentence separator: the boundary scenario of the segmenter claim. -/
def aC4 : List Char := List.replicate 2001 'a'

/-- A document whose only sentence terminator sits at position 600: the
window end collapses to 601 while the next window starts at 800. -/
def tC5 : List Char := List.replicate 600 'a' ++ '.' :: List.replicate 400 'b'

/-- A boundary-free document of 1001 characters producing two chunks. -/
def tC6 : List Char := List.replicate 600 'a' ++ List.replicate 401 'b'

/-- An embedding collaborator that fails exactly on content starting with
the character a. -/
def embC6 : List Char → Option (List Rat) :=
  fun c => if c.head? = some 'a' then none else some [1]

/-- An embedding collaborator that always succeeds. -/
def embOkEx : List Char → Option (List Rat) := fun _ => some [1]

/-- Every persisted message row carries one of the two role strings written
by the handlers. -/
def rolesOk (db : DBState) : Prop :=
  ∀ m ∈ db.messages, m.role = "user" ∨ m.role = "bot"

instance : IsTotal ChunkRec (fun a b => a.chunk_idx ≤ b.chunk_idx) :=
  ⟨fun a b => Nat.le_total a.chunk_idx b.chunk_idx⟩

instance : IsTrans ChunkRec (fun a b => a.chunk_idx ≤ b.chunk_idx) :=
  ⟨fun _ _ _ => Nat.le_trans⟩

/-! ## Helper lemmas -/

theorem chunkTextAux_zero (S O : Nat) (t : List Char) (start idx : Nat) :
    chunkTextAux S O t 0 start idx = [] := rfl

theorem chunkTextAux_succ (S O : Nat) (t : List Char) (fuel start idx : Nat) :
    chunkTextAux S O t (fuel + 1) start idx =
      if start < t.length then
        if pyStrip ((t.drop start).take (chunkEnd S t start - start)) = [] then
          chunkTextAux S O t fuel (max (start + S - O) (chunkEnd S t start)) idx
        else
          ⟨idx, pyStrip ((t.drop start).take (chunkEnd S t start - start)), start,
              chunkEnd S t start⟩ ::
            chunkTextAux S O t fuel (max (start + S - O) (chunkEnd S t start)) (idx + 1)
      else [] := rfl

theorem chunkTextAux_of_le (S O : Nat) (t : List Char) (fuel start idx : Nat)
    (h : t.length ≤ start) : chunkTextAux S O t fuel start idx = [] := by
  cases fuel with
  | zero => rfl
  | succ n => rw [chunkTextAux_succ, if_neg (by omega)]

theorem chunkEnd_lt (S : Nat) (hS : 1 ≤ S) (t : List Char) (start : Nat) :
    start < chunkEnd S t start := by
  unfold chunkEnd chunkParaEnd
  split
  · split
    · split
      · omega
      · split
        · split
          · omega
          · omega
        · omega
    · split
      · split
        · omega
        · omega
      · omega
  · omega

theorem chunkTextAux_fuel_eq (S O : Nat) (hS : 1 ≤ S) (t : List Char) :
    ∀ f1 f2 start idx, t.length ≤ f1 + start → t.length ≤ f2 + start →
      chunkTextAux S O t f1 start idx = chunkTextAux S O t f2 start idx := by
  intro f1
  induction f1 with
  | zero =>
    intro f2 start idx h1 h2
    rw [chunkTextAux_of_le _ _ _ _ _ _ (by omega), chunkTextAux_of_le _ _ _ _ _ _ (by omega)]
  | succ n ih =>
    intro f2 start idx h1 h2
    cases f2 with
    | zero =>
      rw [chunkTextAux_of_le _ _ _ _ _ _ (by omega), chunkTextAux_of_le _ _ _ _ _ _ (by omega)]
    | succ m =>
      by_cases hlt : start < t.length
      · have hnext : start < max (start + S - O) (chunkEnd S t start) :=
          lt_of_lt_of_le (chunkEnd_lt S hS t start) (le_max_right _ _)
        rw [chunkTextAux_succ, chunkTextAux_succ, if_pos hlt, if_pos hlt]
        by_cases hc : pyStrip ((t.drop start).take (chunkEnd S t start - start)) = []
        · rw [if_pos hc, if_pos hc]
          exact ih m _ idx (by omega) (by omega)
        · rw [if_neg hc, if_neg hc]
          rw [ih m _ (idx + 1) (by omega) (by omega)]
      · rw [chunkTextAux_of_le _ _ _ _ _ _ (by omega), chunkTextAux_of_le _ _ _ _ _ _ (by omega)]

/-! ## C8: the per-user upload guard -/

/-- C8: at most one ingestion is in flight per user: after an acquisition,
a second acquisition attempt for the same user returns false; while the user
holds the guard an upload is rejected with the wait notice and the pipeline
is not entered; and when the guard is free the pipeline runs and the guard
is released on both the success and the failure exit path. -/
theorem C8_upload_guard :
    (∀ (s : List Nat) (uid : Nat), (uploadTryAcquire (uploadTryAcquire s uid).2 uid).1 = false) ∧
    (∀ (s : List Nat) (uid : Nat) (outcome : Except String Unit), uid ∈ s →
      guardedIngest s uid outcome = (s, false, [uploadWaitNotice])) ∧
    (∀ (s : List Nat) (uid : Nat) (outcome : Except String Unit), uid ∉ s →
      (guardedIngest s uid outcome).1 = s ∧ (guardedIngest s uid outcome).2.1 = true ∧
        uid ∉ (guardedIngest s uid outcome).1) := by
  refine ⟨?_, ?_, ?_⟩
  · intro s uid
    unfold uploadTryAcquire
    by_cases h : uid ∈ s
    · simp [h]
    · simp [h]
  · intro s uid outcome h
    unfold guardedIngest uploadTryAcquire
    simp [h]
  · intro s uid outcome h
    have hrel : uploadRelease (uid :: s) uid = s := by
      unfold uploadRelease
      rw [List.filter_cons_of_neg (by simp)]
      exact List.filter_eq_self.mpr (fun a ha => by
        simp only [decide_eq_true_eq]
        intro heq
        exact h (heq ▸ ha))
    unfold guardedIngest uploadTryAcquire
    cases outcome with
    | ok u => simp [h, hrel]
    | error e => simp [h, hrel]

/-- Witness for C8 at concrete inputs: user 3 holding the guard is rejected,
and a fresh acquisition for user 4 runs the pipeline and restores the
state. -/
theorem C8_upload_guard_witness :
    guardedIngest [3] 3 (Except.ok ()) = ([3], false, [uploadWaitNotice]) ∧
    (guardedIngest [3] 4 (Except.error "boom")).1 = [3] :=
  ⟨C8_upload_guard.2.1 [3] 3 (Except.ok ()) (by decide),
   (C8_upload_guard.2.2 [3] 4 (Except.error "boom") (by decide)).1⟩

/-! ## C9: chunker termination -/

/-- C9: the chunker terminates on every input: whenever the chunk size is
positive, any two fuel values at least the remaining length compute the same
result, so the loop needs at most one pass per character and the definition
at fuel length + 1 is the limit of the iteration; and on the degenerate
document A. B. C. with chunk size 4 and overlap 1 it terminates and produces
at least one non-empty chunk. -/
theorem C9_chunker_terminates :
    (∀ (S O : Nat) (t : List Char) (f1 f2 start idx : Nat), 1 ≤ S →
      t.length ≤ f1 + start → t.length ≤ f2 + start →
      chunkTextAux S O t f1 start idx = chunkTextAux S O t f2 start idx) ∧
    (chunkTextP 4 1 ("A. B. C.".data) ≠ [] ∧
      ∀ ch ∈ chunkTextP 4 1 ("A. B. C.".data), ch.content ≠ []) := by
  constructor
  · intro S O t f1 f2 start idx hS h1 h2
    exact chunkTextAux_fuel_eq S O hS t f1 f2 start idx h1 h2
  · constructor
    · decide
    · decide

/-- Witness for C9: the fuel-indifference part applied at the degenerate
document with fuels 9 and 30. -/
theorem C9_chunker_terminates_witness :
    chunkTextAux 4 1 ("A. B. C.".data) 9 0 0 = chunkTextAux 4 1 ("A. B. C.".data) 30 0 0 :=
  C9_chunker_terminates.1 4 1 ("A. B. C.".data) 9 30 0 0 (by decide) (by decide) (by decide)


theorem rfindAux_of_not_mem (c : Char) (s e : Nat) :
    ∀ (l : List Char) (i : Nat), (∀ x ∈ l, x ≠ c) → rfindAux c s e l i none = none := by
  intro l
  induction l with
  | nil => intro i _; rfl
  | cons x xs ih =>
    intro i h
    unfold rfindAux
    rw [if_neg (fun hc => (h x (List.mem_cons_self x xs)) hc.2.2)]
    exact ih (i + 1) (fun y hy => h y (List.mem_cons_of_mem x hy))

theorem rfindChar_of_not_mem (t : List Char) (c : Char) (s e : Nat)
    (h : ∀ x ∈ t, x ≠ c) : rfindChar t c s e = none :=
  rfindAux_of_not_mem c s e t 0 h

theorem dropWhile_eq_self_of_all (p : Char → Bool) (l : List Char)
    (h : ∀ x ∈ l, p x = false) : l.dropWhile p = l := by
  cases l with
  | nil => rfl
  | cons a as => simp [List.dropWhile_cons, h a (List.mem_cons_self a as)]

theorem pyStrip_eq_self (l : List Char) (h : ∀ x ∈ l, isPySpace x = false) :
    pyStrip l = l := by
  unfold pyStrip
  rw [dropWhile_eq_self_of_all _ _ h,
    dropWhile_eq_self_of_all _ _ (fun x hx => h x (List.mem_reverse.mp hx)),
    List.reverse_reverse]

theorem chunkEnd_no_boundary (S : Nat) (t : List Char) (start : Nat)
    (hdot : ∀ x ∈ t, x ≠ '.') (hnl : ∀ x ∈ t, x ≠ '\n') :
    chunkEnd S t start = start + S := by
  unfold chunkEnd chunkParaEnd
  rw [rfindChar_of_not_mem _ _ _ _ hdot, rfindChar_of_not_mem _ _ _ _ hnl]
  simp

theorem chunkTextAux_covers (t : List Char)
    (hdot : ∀ x ∈ t, x ≠ '.') (hnl : ∀ x ∈ t, x ≠ '\n')
    (hws : ∀ x ∈ t, isPySpace x = false) :
    ∀ f start idx p, t.length ≤ f + start → start ≤ p → p < t.length →
      ∃ ch ∈ chunkTextAux CHUNK_SIZE CHUNK_OVERLAP t f start idx,
        ch.start_pos ≤ p ∧ p < ch.end_pos := by
  intro f
  induction f with
  | zero => intro start idx p h1 h2 h3; omega
  | succ n ih =>
    intro start idx p h1 h2 h3
    have hcs : CHUNK_SIZE = 1000 := rfl
    have hco : CHUNK_OVERLAP = 200 := rfl
    have hlt : start < t.length := lt_of_le_of_lt h2 h3
    have hend : chunkEnd CHUNK_SIZE t start = start + CHUNK_SIZE :=
      chunkEnd_no_boundary _ _ _ hdot hnl
    have hslice : ∀ x ∈ (t.drop start).take (chunkEnd CHUNK_SIZE t start - start),
        isPySpace x = false := by
      intro x hx
      exact hws x ((List.drop_sublist start t).subset ((List.take_sublist _ _).subset hx))
    have hcne : pyStrip ((t.drop start).take (chunkEnd CHUNK_SIZE t start - start)) ≠ [] := by
      rw [pyStrip_eq_self _ hslice]
      intro hemp
      have hlen := congrArg List.length hemp
      rw [List.length_take, List.length_drop, hend] at hlen
      simp only [CHUNK_SIZE, List.length_nil] at hlen
      omega
    rw [chunkTextAux_succ, if_pos hlt, if_neg hcne]
    by_cases hp : p < start + CHUNK_SIZE
    · refine ⟨_, List.mem_cons_self _ _, ?_, ?_⟩
      · exact h2
      · rw [hend]; exact hp
    · have hnext : max (start + CHUNK_SIZE - CHUNK_OVERLAP) (chunkEnd CHUNK_SIZE t start)
          = start + CHUNK_SIZE := by
        rw [hend]
        simp only [CHUNK_SIZE, CHUNK_OVERLAP]
        omega
      obtain ⟨ch, hmem, hle, hlt2⟩ := ih (start + CHUNK_SIZE) (idx + 1) p (by omega) (by omega) h3
      exact ⟨ch, List.mem_cons_of_mem _ (by rw [hnext]; exact hmem), hle, hlt2⟩

/-! ## C5: chunk coverage of the document -/

/-- C5 (amended): coverage holds away from the boundary heuristics: for
every text with no sentence terminator, no newline and no whitespace, the
character ranges of the produced chunks cover every position of the text.
In general the claim fails: a sentence break that pulls the window end
before the next start position leaves a gap (see the counterexample). -/
theorem C5_coverage_amended :
    ∀ t : List Char, (∀ x ∈ t, x ≠ '.' ∧ x ≠ '\n' ∧ isPySpace x = false) →
      ∀ p, p < t.length →
        ∃ ch ∈ chunk_text t, ch.start_pos ≤ p ∧ p < ch.end_pos := by
  intro t h p hp
  exact chunkTextAux_covers t (fun x hx => (h x hx).1) (fun x hx => (h x hx).2.1)
    (fun x hx => (h x hx).2.2) (t.length + 1) 0 0 p (by omega) (Nat.zero_le _) hp

/-- Witness for C5 at a concrete boundary-free text. -/
theorem C5_coverage_witness :
    ∃ ch ∈ chunk_text ("abc".data), ch.start_pos ≤ 1 ∧ 1 < ch.end_pos :=
  C5_coverage_amended ("abc".data) (by decide) 1 (by decide)

/-- C5 counterexample: in the 1001-character document tC5 the first window
ends at the sentence break (end 601) while the next window starts at 800, so
position 700 lies in no chunk range and its character is lost. -/
theorem C5_coverage_counterexample :
    ¬ ∃ ch ∈ chunk_text tC5, ch.start_pos ≤ 700 ∧ 700 < ch.end_pos := by decide

/-! ## C6: contiguity of chunk indices -/

theorem chunkTextAux_map_idx (S O : Nat) (t : List Char) :
    ∀ f start idx, (chunkTextAux S O t f start idx).map ChunkData.chunk_idx
      = List.range' idx (chunkTextAux S O t f start idx).length := by
  intro f
  induction f with
  | zero => intro start idx; rfl
  | succ n ih =>
    intro start idx
    rw [chunkTextAux_succ]
    by_cases hlt : start < t.length
    · rw [if_pos hlt]
      by_cases hc : pyStrip ((t.drop start).take (chunkEnd S t start - start)) = []
      · rw [if_pos hc]
        exact ih _ _
      · rw [if_neg hc]
        simp only [List.map_cons, List.length_cons, ih]
        rw [List.range'_succ]
    · rw [if_neg hlt]
      rfl

theorem chunkTextAux_content_ne (S O : Nat) (t : List Char) :
    ∀ f start idx, ∀ ch ∈ chunkTextAux S O t f start idx, ch.content ≠ [] := by
  intro f
  induction f with
  | zero => intro start idx ch hch; cases hch
  | succ n ih =>
    intro start idx ch hch
    rw [chunkTextAux_succ] at hch
    by_cases hlt : start < t.length
    · rw [if_pos hlt] at hch
      by_cases hc : pyStrip ((t.drop start).take (chunkEnd S t start - start)) = []
      · rw [if_pos hc] at hch
        exact ih _ _ ch hch
      · rw [if_neg hc] at hch
        rcases List.mem_cons.mp hch with h | h
        · rw [h]
          exact hc
        · exact ih _ _ ch h
    · rw [if_neg hlt] at hch
      cases hch

theorem filterMap_embed_total (embed : List Char → Option (List Rat)) (rid : Nat)
    (h : ∀ c, (embed c).isSome) (l : List ChunkData) :
    (l.filterMap (fun cd => (embed cd.content).map
        (fun e => ChunkRec.mk rid cd.chunk_idx cd.content e))).map ChunkRec.chunk_idx
      = l.map ChunkData.chunk_idx := by
  induction l with
  | nil => rfl
  | cons cd l ih =>
    cases hop : embed cd.content with
    | none =>
      have := h cd.content
      rw [hop] at this
      cases this
    | some e => simp [List.filterMap_cons, hop, ih]

theorem ensure_user_reports (db : DBState) (u : Nat) (n : String) :
    (ensure_user_exists db u n).reports = db.reports := by
  unfold ensure_user_exists
  split <;> rfl

theorem ensure_user_chunks (db : DBState) (u : Nat) (n : String) :
    (ensure_user_exists db u n).chunks = db.chunks := by
  unfold ensure_user_exists
  split <;> rfl

theorem ensure_user_messages (db : DBState) (u : Nat) (n : String) :
    (ensure_user_exists db u n).messages = db.messages := by
  unfold ensure_user_exists
  split <;> rfl

theorem save_message_reports (db : DBState) (mid rid : Nat) (uid : Option Nat)
    (role : String) (content : List Char) (it ot : Nat) (cu : Rat) (cids : List Nat) :
    (save_message db mid rid uid role content it ot cu cids).reports = db.reports := rfl

theorem save_message_chunks (db : DBState) (mid rid : Nat) (uid : Option Nat)
    (role : String) (content : List Char) (it ot : Nat) (cu : Rat) (cids : List Nat) :
    (save_message db mid rid uid role content it ot cu cids).chunks = db.chunks := rfl

theorem save_message_messages (db : DBState) (mid rid : Nat) (uid : Option Nat)
    (role : String) (content : List Char) (it ot : Nat) (cu : Rat) (cids : List Nat) :
    (save_message db mid rid uid role content it ot cu cids).messages
      = db.messages ++ [⟨mid, rid, uid, role, content, it, ot, cu, cids⟩] := rfl

theorem process_pdf_upload_chunks (db : DBState) (authorId : Nat)
    (username filename : String) (uploadMsgId newThreadId botMsgId : Nat)
    (decodedText : List Char) (embed : List Char → Option (List Rat))
    (md : List (String × String)) (dateIntro : List Char) :
    (process_pdf_upload db authorId username filename uploadMsgId newThreadId botMsgId
        decodedText embed md dateIntro).1.chunks
      = db.chunks ++
        (if clean_text decodedText = [] then [] else
          (chunk_text (clean_text decodedText)).filterMap (fun cd =>
            (embed cd.content).map (fun e => ChunkRec.mk
              (freshReportId (ensure_user_exists db authorId username))
              cd.chunk_idx cd.content e))) := by
  unfold process_pdf_upload
  by_cases htext : clean_text decodedText = []
  · simp [htext, ensure_user_chunks]
  · simp [htext, save_message_chunks, ensure_user_chunks]

/-- C6 (amended): the chunker emits chunks indexed contiguously from 0 with
no empty chunk; and the chunk rows persisted by an ingestion have contiguous
0-based indices provided the embedding collaborator succeeds on every chunk.
Without that proviso the claim fails: a chunk whose embedding call raises is
skipped, leaving a hole (see the counterexample). -/
theorem C6_contiguous_indices_amended :
    (∀ t : List Char, (chunk_text t).map ChunkData.chunk_idx
        = List.range (chunk_text t).length ∧
      ∀ ch ∈ chunk_text t, ch.content ≠ []) ∧
    (∀ (db : DBState) (authorId : Nat) (username filename : String)
        (uploadMsgId newThreadId botMsgId : Nat) (decodedText : List Char)
        (embed : List Char → Option (List Rat)) (md : List (String × String))
        (dateIntro : List Char),
      (∀ c, (embed c).isSome) →
      ((process_pdf_upload db authorId username filename uploadMsgId newThreadId botMsgId
          decodedText embed md dateIntro).1.chunks.drop db.chunks.length).map ChunkRec.chunk_idx
        = List.range ((process_pdf_upload db authorId username filename uploadMsgId newThreadId
            botMsgId decodedText embed md dateIntro).1.chunks.drop db.chunks.length).length) := by
  constructor
  · intro t
    refine ⟨?_, chunkTextAux_content_ne _ _ _ _ _ _⟩
    rw [List.range_eq_range']
    exact chunkTextAux_map_idx CHUNK_SIZE CHUNK_OVERLAP t _ 0 0
  · intro db authorId username filename uploadMsgId newThreadId botMsgId decodedText embed md dateIntro h
    rw [process_pdf_upload_chunks]
    by_cases htext : clean_text decodedText = []
    · rw [if_pos htext, List.append_nil, List.drop_length]
      rfl
    · rw [if_neg htext, List.drop_left]
      rw [filterMap_embed_total _ _ h]
      have hlen : ((chunk_text (clean_text decodedText)).filterMap (fun cd =>
          (embed cd.content).map (fun e => ChunkRec.mk
            (freshReportId (ensure_user_exists db authorId username))
            cd.chunk_idx cd.content e))).length
          = (chunk_text (clean_text decodedText)).length := by
        have := congrArg List.length (filterMap_embed_total embed
          (freshReportId (ensure_user_exists db authorId username)) h
          (chunk_text (clean_text decodedText)))
        simpa using this
      rw [hlen, List.range_eq_range']
      exact chunkTextAux_map_idx CHUNK_SIZE CHUNK_OVERLAP _ _ 0 0


/-- C6 counterexample: ingesting the 1001-character document tC6 with an
embedding collaborator that fails on the first chunk persists only the row
with chunk_idx 1, so the persisted indices are not contiguous from 0. -/
theorem C6_contiguous_indices_counterexample :
    ((process_pdf_upload dbEmptyEx 7 "alice" "r.pdf" 60 42 61 tC6 embC6 [] []).1.chunks).map
        ChunkRec.chunk_idx = [1] ∧
    ((process_pdf_upload dbEmptyEx 7 "alice" "r.pdf" 60 42 61 tC6 embC6 [] []).1.chunks).map
        ChunkRec.chunk_idx ≠
      List.range ((process_pdf_upload dbEmptyEx 7 "alice" "r.pdf" 60 42 61 tC6
        embC6 [] []).1.chunks).length := by
  constructor
  · decide
  · decide

/-- Witness for C6 at a concrete ingestion whose embeddings all succeed. -/
theorem C6_contiguous_indices_witness :
    ((process_pdf_upload dbEmptyEx 7 "alice" "r.pdf" 60 42 61 ("gut flora".data) embOkEx
        [] []).1.chunks.drop dbEmptyEx.chunks.length).map ChunkRec.chunk_idx
      = List.range ((process_pdf_upload dbEmptyEx 7 "alice" "r.pdf" 60 42 61 ("gut flora".data)
          embOkEx [] []).1.chunks.drop dbEmptyEx.chunks.length).length :=
  C6_contiguous_indices_amended.2 dbEmptyEx 7 "alice" "r.pdf" 60 42 61 ("gut flora".data)
    embOkEx [] [] (fun _ => rfl)

/-! ## C10: the cleaner leaves no newline for the chunker -/

theorem collapseWs_single (c : Char) :
    collapseWs [c] = if isPySpace c then [' '] else [c] := rfl

theorem collapseWs_cons_cons (c c2 : Char) (r : List Char) :
    collapseWs (c :: c2 :: r) =
      if isPySpace c then
        (if isPySpace c2 then collapseWs (c2 :: r) else ' ' :: collapseWs (c2 :: r))
      else c :: collapseWs (c2 :: r) := rfl

theorem collapseWs_space : ∀ (l : List Char), ∀ x ∈ collapseWs l, isPySpace x = true → x = ' ' := by
  intro l
  induction l with
  | nil => intro x hx; cases hx
  | cons c rest ih =>
    intro x hx hsp
    cases rest with
    | nil =>
      rw [collapseWs_single] at hx
      by_cases hc : isPySpace c
      · rw [if_pos hc] at hx
        exact List.mem_singleton.mp hx
      · rw [if_neg hc] at hx
        rw [List.mem_singleton.mp hx] at hsp
        rw [hsp] at hc
        exact absurd rfl hc
    | cons c2 r2 =>
      rw [collapseWs_cons_cons] at hx
      by_cases hc : isPySpace c
      · rw [if_pos hc] at hx
        by_cases hc2 : isPySpace c2
        · rw [if_pos hc2] at hx
          exact ih x hx hsp
        · rw [if_neg hc2] at hx
          rcases List.mem_cons.mp hx with h | h
          · exact h
          · exact ih x h hsp
      · rw [if_neg hc] at hx
        rcases List.mem_cons.mp hx with h | h
        · subst h
          rw [hsp] at hc
          exact absurd rfl hc
        · exact ih x h hsp

theorem newline_not_mem_collapseWs (l : List Char) : '\n' ∉ collapseWs l := by
  intro h
  have := collapseWs_space l '\n' h (by decide)
  exact absurd this (by decide)

theorem subNlNumNlAux_no_newline (f : Nat) :
    ∀ l : List Char, '\n' ∉ l → subNlNumNlAux f l = l := by
  induction f with
  | zero => intro l _; rfl
  | succ n ih =>
    intro l h
    cases l with
    | nil => rfl
    | cons c rest =>
      have hc : ¬ c = '\n' := fun he => h (he ▸ List.mem_cons_self c rest)
      simp only [subNlNumNlAux, if_neg hc]
      rw [ih rest (fun hm => h (List.mem_cons_of_mem c hm))]

theorem mem_removePageAux (f : Nat) :
    ∀ (l : List Char) (x : Char), x ∈ removePageAux f l → x ∈ l := by
  induction f with
  | zero => intro l x h; exact h
  | succ n ih =>
    intro l x h
    cases l with
    | nil => cases h
    | cons c rest =>
      by_cases hp : ("Page ".data).isPrefixOf (c :: rest) ∧ pageDigitAt (c :: rest)
      · simp only [removePageAux, if_pos hp] at h
        have hx := ih _ x h
        exact (List.drop_sublist 5 (c :: rest)).subset ((List.dropWhile_sublist _).subset hx)
      · simp only [removePageAux, if_neg hp] at h
        rcases List.mem_cons.mp h with h1 | h1
        · exact h1 ▸ List.mem_cons_self _ _
        · exact List.mem_cons_of_mem _ (ih rest x h1)

theorem mem_pyStrip (l : List Char) (x : Char) (h : x ∈ pyStrip l) : x ∈ l := by
  unfold pyStrip at h
  have h1 := List.mem_reverse.mp h
  have h2 := (List.dropWhile_sublist _).subset h1
  have h3 := List.mem_reverse.mp h2
  exact (List.dropWhile_sublist _).subset h3

theorem clean_text_no_newline (t : List Char) : '\n' ∉ clean_text t := by
  intro h
  simp only [clean_text] at h
  have h4 := mem_pyStrip _ _ h
  rcases List.mem_map.mp h4 with ⟨y, hy, hmap⟩
  have hy3 : y = '\n' := by
    by_cases hu : y = '_'
    · rw [if_pos hu] at hmap
      exact absurd hmap (by decide)
    · rw [if_neg hu] at hmap
      exact hmap
  subst hy3
  have h5 := mem_removePageAux _ _ _ hy
  unfold subNlNumNl at h5
  rw [subNlNumNlAux_no_newline _ _ (newline_not_mem_collapseWs t)] at h5
  exact newline_not_mem_collapseWs t h5

theorem chunkEnd_no_newline (S : Nat) (t : List Char) (start : Nat) (hnl : '\n' ∉ t) :
    chunkEnd S t start = chunkEndNoPara S t start := by
  unfold chunkEnd chunkEndNoPara chunkParaEnd
  rw [rfindChar_of_not_mem t '\n' start (start + S) (fun x hx he => hnl (he ▸ hx))]

theorem chunkTextAuxNoPara_succ (S O : Nat) (t : List Char) (fuel start idx : Nat) :
    chunkTextAuxNoPara S O t (fuel + 1) start idx =
      if start < t.length then
        if pyStrip ((t.drop start).take (chunkEndNoPara S t start - start)) = [] then
          chunkTextAuxNoPara S O t fuel (max (start + S - O) (chunkEndNoPara S t start)) idx
        else
          ⟨idx, pyStrip ((t.drop start).take (chunkEndNoPara S t start - start)), start,
              chunkEndNoPara S t start⟩ ::
            chunkTextAuxNoPara S O t fuel (max (start + S - O) (chunkEndNoPara S t start)) (idx + 1)
      else [] := rfl

theorem chunkTextAux_no_newline_eq (S O : Nat) (t : List Char) (hnl : '\n' ∉ t) :
    ∀ f start idx, chunkTextAux S O t f start idx = chunkTextAuxNoPara S O t f start idx := by
  intro f
  induction f with
  | zero => intro start idx; rfl
  | succ n ih =>
    intro start idx
    rw [chunkTextAux_succ, chunkTextAuxNoPara_succ, chunkEnd_no_newline S t start hnl,
      ih (max (start + S - O) (chunkEndNoPara S t start)) idx,
      ih (max (start + S - O) (chunkEndNoPara S t start)) (idx + 1)]

/-- C10: the cleaning step leaves no newline character in the text reaching
the chunker, so the paragraph-break fallback branch of chunk_text is
unreachable on ingested input: on cleaned text the chunker coincides with
its variant whose paragraph branch is removed. -/
theorem C10_no_newline_reaches_chunker :
    ∀ raw : List Char, '\n' ∉ clean_text raw ∧
      chunk_text (clean_text raw) = chunkTextNoPara (clean_text raw) := by
  intro raw
  refine ⟨clean_text_no_newline raw, ?_⟩
  unfold chunk_text chunkTextP chunkTextNoPara
  exact chunkTextAux_no_newline_eq _ _ _ (clean_text_no_newline raw) _ 0 0

/-! ## C1: what the thread handler writes -/

theorem rolesOk_of_messages_eq {db1 db2 : DBState} (h : db2.messages = db1.messages)
    (hok : rolesOk db1) : rolesOk db2 :=
  fun m hm => hok m (h ▸ hm)

theorem save_message_rolesOk (db : DBState) (mid rid : Nat) (uid : Option Nat)
    (role : String) (content : List Char) (it ot : Nat) (cu : Rat) (cids : List Nat)
    (h : rolesOk db) (hrole : role = "user" ∨ role = "bot") :
    rolesOk (save_message db mid rid uid role content it ot cu cids) := by
  intro m hm
  rw [save_message_messages] at hm
  rcases List.mem_append.mp hm with h1 | h1
  · exact h m h1
  · rw [List.mem_singleton.mp h1]
    exact hrole

theorem followups_reports (db : DBState) (report : ReportRec)
    (history : List (String × List Char)) (rc : List (List Char))
    (ig : Except String GenOut) (i q : Nat) :
    (check_and_send_followups db report history rc ig i q).1.reports = db.reports := by
  simp only [check_and_send_followups]
  repeat' split
  all_goals rfl

theorem followups_chunks (db : DBState) (report : ReportRec)
    (history : List (String × List Char)) (rc : List (List Char))
    (ig : Except String GenOut) (i q : Nat) :
    (check_and_send_followups db report history rc ig i q).1.chunks = db.chunks := by
  simp only [check_and_send_followups]
  repeat' split
  all_goals rfl

theorem followups_messages_mem (db : DBState) (report : ReportRec)
    (history : List (String × List Char)) (rc : List (List Char))
    (ig : Except String GenOut) (i q : Nat) (m : MessageRec) (hm : m ∈ db.messages) :
    m ∈ (check_and_send_followups db report history rc ig i q).1.messages := by
  simp only [check_and_send_followups]
  repeat' split
  all_goals
    first
    | exact hm
    | exact List.mem_append_left _ hm
    | exact List.mem_append_left _ (List.mem_append_left _ hm)

theorem followups_rolesOk (db : DBState) (report : ReportRec)
    (history : List (String × List Char)) (rc : List (List Char))
    (ig : Except String GenOut) (i q : Nat) (h : rolesOk db) :
    rolesOk (check_and_send_followups db report history rc ig i q).1 := by
  simp only [check_and_send_followups]
  repeat' split
  all_goals
    first
    | exact h
    | exact save_message_rolesOk _ _ _ _ _ _ _ _ _ _ h (Or.inr rfl)
    | exact save_message_rolesOk _ _ _ _ _ _ _ _ _ _
        (save_message_rolesOk _ _ _ _ _ _ _ _ _ _ h (Or.inr rfl)) (Or.inr rfl)

/-- C1 (amended): a message arriving in a report thread is persisted
verbatim as a user Message row and answered, but the handler never touches
the report row itself: the report list, and with it the metadata mapping and
the conversation_stage field, is unchanged (no stage-specific metadata key
is written and the persisted stage never advances; the staging the
specification describes lives in keyword heuristics inside the external
generation call). -/
theorem C1_thread_message_amended :
    ∀ (db : DBState) (channelId msgId senderId : Nat) (username : String)
      (content : List Char) (dist : List Rat → List Rat → Rat)
      (embedResult : Except String (List Rat)) (vectorOk : Bool)
      (genResult insightGen : Except String GenOut) (b i q : Nat) (report : ReportRec),
      db.reports.find? (fun r => r.thread_id == channelId) = some report →
      ((handle_thread_message db channelId msgId senderId username content dist embedResult
          vectorOk genResult insightGen b i q).1.reports = db.reports ∧
        (⟨msgId, report.id, some senderId, "user", content, 0, 0, 0, []⟩ : MessageRec) ∈
          (handle_thread_message db channelId msgId senderId username content dist embedResult
            vectorOk genResult insightGen b i q).1.messages) := by
  intro db channelId msgId senderId username content dist embedResult vectorOk genResult
    insightGen b i q report hfind
  unfold handle_thread_message
  rw [hfind]
  cases genResult with
  | error e =>
    constructor
    · rw [save_message_reports, ensure_user_reports]
    · rw [save_message_messages, ensure_user_messages]
      exact List.mem_append_right _ (List.mem_singleton.mpr rfl)
  | ok g =>
    constructor
    · rw [followups_reports, save_message_reports, save_message_reports, ensure_user_reports]
    · refine followups_messages_mem _ _ _ _ _ _ _ _ ?_
      rw [save_message_messages, save_message_messages, ensure_user_messages]
      exact List.mem_append_left _ (List.mem_append_right _ (List.mem_singleton.mpr rfl))

/-- Witness for C1 at a concrete run: one message in the thread of
reportEx. -/
theorem C1_thread_message_amended_witness :
    (handle_thread_message dbC1 42 100 7 "alice" ("I took antibiotics".data) distEx
        (Except.error "down") true (Except.ok genEx) (Except.error "unused") 101 102 103).1.reports
      = dbC1.reports ∧
    (⟨100, reportEx.id, some 7, "user", "I took antibiotics".data, 0, 0, 0, []⟩ : MessageRec) ∈
      (handle_thread_message dbC1 42 100 7 "alice" ("I took antibiotics".data) distEx
        (Except.error "down") true (Except.ok genEx) (Except.error "unused") 101 102 103).1.messages :=
  C1_thread_message_amended dbC1 42 100 7 "alice" ("I took antibiotics".data) distEx
    (Except.error "down") true (Except.ok genEx) (Except.error "unused") 101 102 103 reportEx
    (by decide)

/-- C1 counterexample: after handling an inbound message in the thread of a
report whose stored stage is the non-terminal default, the report row is
unchanged: its metadata mapping holds no antibiotics_response, diet_response
or symptoms_response key (it is still empty) and conversation_stage is still
the default instead of the next state. -/
theorem C1_thread_message_counterexample :
    (handle_thread_message dbC1 42 100 7 "alice" ("I took antibiotics".data) distEx
        (Except.error "down") true (Except.ok genEx) (Except.error "unused") 101 102 103).1.reports
      = [⟨1, 7, 42, none, [], "initial"⟩] := by decide

/-! ## C2: uploads never purge prior data -/

theorem process_pdf_upload_reports (db : DBState) (authorId : Nat)
    (username filename : String) (uploadMsgId newThreadId botMsgId : Nat)
    (decodedText : List Char) (embed : List Char → Option (List Rat))
    (md : List (String × String)) (dateIntro : List Char) :
    (process_pdf_upload db authorId username filename uploadMsgId newThreadId botMsgId
        decodedText embed md dateIntro).1.reports
      = db.reports ++
        (if clean_text decodedText = [] then [] else
          [⟨freshReportId (ensure_user_exists db authorId username), authorId, newThreadId,
            (md.find? (fun kv => kv.1 == "sample_date")).map (fun kv => kv.2), md, "initial"⟩]) := by
  unfold process_pdf_upload
  by_cases htext : clean_text decodedText = []
  · simp [htext, ensure_user_reports]
  · simp [htext, save_message_reports, ensure_user_reports]

theorem process_pdf_upload_messages_append (db : DBState) (authorId : Nat)
    (username filename : String) (uploadMsgId newThreadId botMsgId : Nat)
    (decodedText : List Char) (embed : List Char → Option (List Rat))
    (md : List (String × String)) (dateIntro : List Char) :
    ∃ rest : List MessageRec,
      (process_pdf_upload db authorId username filename uploadMsgId newThreadId botMsgId
          decodedText embed md dateIntro).1.messages = db.messages ++ rest ∧
        ∀ m ∈ rest, m.role = "user" ∨ m.role = "bot" := by
  unfold process_pdf_upload
  by_cases htext : clean_text decodedText = []
  · refine ⟨[], ?_, fun m hm => absurd hm (List.not_mem_nil m)⟩
    simp [htext, ensure_user_messages]
  · refine ⟨[⟨uploadMsgId, freshReportId (ensure_user_exists db authorId username),
        some authorId, "user", ("[PDF Upload: " ++ filename ++ "]").data, 0, 0, 0, []⟩,
      ⟨botMsgId, freshReportId (ensure_user_exists db authorId username), none, "bot",
        (if md.any (fun kv => kv.1 == "sample_date") then dateIntro
         else ("Looks like the report date is missing.\nWhen did you take this test? (Month and year is enough.)\n\n".data))
        ++ ("Did you take any antibiotics around the time of the test?".data), 0, 0, 0, []⟩],
      ?_, ?_⟩
    · simp [htext, save_message_messages, ensure_user_messages, MessageRole.value]
    · intro m hm
      rcases List.mem_cons.mp hm with h1 | h1
      · rw [h1]
        exact Or.inl rfl
      · rw [List.mem_singleton.mp h1]
        exact Or.inr rfl

/-- C2 (amended): an upload never deletes anything: every Report, Chunk and
Message row present before process_pdf_upload is still present afterwards,
even when a Report for the same user already exists under the uploaded-to
thread id; when the cleaned text is non-empty a new Report bound to the
newly created thread is appended instead of replacing the prior one.  The
purge-before-recreate policy of the claim does not exist in the handler. -/
theorem C2_no_purge_amended :
    ∀ (db : DBState) (authorId : Nat) (username filename : String)
      (uploadMsgId newThreadId botMsgId : Nat) (decodedText : List Char)
      (embed : List Char → Option (List Rat)) (md : List (String × String))
      (dateIntro : List Char),
      (∀ r ∈ db.reports, r ∈ (process_pdf_upload db authorId username filename uploadMsgId
          newThreadId botMsgId decodedText embed md dateIntro).1.reports) ∧
      (∀ c ∈ db.chunks, c ∈ (process_pdf_upload db authorId username filename uploadMsgId
          newThreadId botMsgId decodedText embed md dateIntro).1.chunks) ∧
      (∀ m ∈ db.messages, m ∈ (process_pdf_upload db authorId username filename uploadMsgId
          newThreadId botMsgId decodedText embed md dateIntro).1.messages) ∧
      (clean_text decodedText ≠ [] →
        ∃ r ∈ (process_pdf_upload db authorId username filename uploadMsgId newThreadId botMsgId
            decodedText embed md dateIntro).1.reports,
          r.thread_id = newThreadId ∧ r.conversation_stage = "initial") := by
  intro db authorId username filename uploadMsgId newThreadId botMsgId decodedText embed md dateIntro
  refine ⟨?_, ?_, ?_, ?_⟩
  · intro r hr
    rw [process_pdf_upload_reports]
    exact List.mem_append_left _ hr
  · intro c hc
    rw [process_pdf_upload_chunks]
    exact List.mem_append_left _ hc
  · intro m hm
    obtain ⟨rest, heq, _⟩ := process_pdf_upload_messages_append db authorId username filename
      uploadMsgId newThreadId botMsgId decodedText embed md dateIntro
    rw [heq]
    exact List.mem_append_left _ hm
  · intro htext
    rw [process_pdf_upload_reports, if_neg htext]
    exact ⟨_, List.mem_append_right _ (List.mem_singleton.mpr rfl), rfl, rfl⟩

/-- Witness for C2 at a concrete re-upload into thread 42, which already
holds reportEx. -/
theorem C2_no_purge_amended_witness :
    reportEx ∈ (process_pdf_upload dbC2 7 "alice" "report2.pdf" 60 42 61
        ("Gut flora data sample".data) embOkEx [] []).1.reports ∧
    ∃ r ∈ (process_pdf_upload dbC2 7 "alice" "report2.pdf" 60 42 61
        ("Gut flora data sample".data) embOkEx [] []).1.reports,
      r.thread_id = 42 ∧ r.conversation_stage = "initial" :=
  ⟨(C2_no_purge_amended dbC2 7 "alice" "report2.pdf" 60 42 61
      ("Gut flora data sample".data) embOkEx [] []).1 reportEx (by decide),
   (C2_no_purge_amended dbC2 7 "alice" "report2.pdf" 60 42 61
      ("Gut flora data sample".data) embOkEx [] []).2.2.2 (by decide)⟩

/-- C2 counterexample: user 7 re-uploads a document to thread id 42 where
reportEx already lives; after the upload the prior report, its chunk row and
its message row all still exist, so nothing was purged and rows still
reference the old report id. -/
theorem C2_no_purge_counterexample :
    reportEx ∈ (process_pdf_upload dbC2 7 "alice" "report2.pdf" 60 42 61
        ("Gut flora data sample".data) embOkEx [] []).1.reports ∧
    cOldC2 ∈ (process_pdf_upload dbC2 7 "alice" "report2.pdf" 60 42 61
        ("Gut flora data sample".data) embOkEx [] []).1.chunks ∧
    mOldC2 ∈ (process_pdf_upload dbC2 7 "alice" "report2.pdf" 60 42 61
        ("Gut flora data sample".data) embOkEx [] []).1.messages := by
  refine ⟨?_, ?_, ?_⟩ <;> decide

/-! ## C7: the roles actually persisted -/

/-- C7 (amended): every message row persisted by the handlers carries role
user or role bot: both save paths of process_pdf_upload, the user and
assistant-reply paths of handle_thread_message and the follow-up messages
only ever write the strings user and bot (the string assistant appears only
in the role mapping applied when calling the external completion API, never
in storage). -/
theorem C7_roles_amended :
    (∀ (db : DBState) (authorId : Nat) (username filename : String)
        (uploadMsgId newThreadId botMsgId : Nat) (decodedText : List Char)
        (embed : List Char → Option (List Rat)) (md : List (String × String))
        (dateIntro : List Char), rolesOk db →
      rolesOk (process_pdf_upload db authorId username filename uploadMsgId newThreadId
        botMsgId decodedText embed md dateIntro).1) ∧
    (∀ (db : DBState) (channelId msgId senderId : Nat) (username : String)
        (content : List Char) (dist : List Rat → List Rat → Rat)
        (embedResult : Except String (List Rat)) (vectorOk : Bool)
        (genResult insightGen : Except String GenOut) (b i q : Nat), rolesOk db →
      rolesOk (handle_thread_message db channelId msgId senderId username content dist
        embedResult vectorOk genResult insightGen b i q).1) := by
  constructor
  · intro db authorId username filename uploadMsgId newThreadId botMsgId decodedText embed md
      dateIntro h
    obtain ⟨rest, heq, hrest⟩ := process_pdf_upload_messages_append db authorId username filename
      uploadMsgId newThreadId botMsgId decodedText embed md dateIntro
    intro m hm
    rw [heq] at hm
    rcases List.mem_append.mp hm with h1 | h1
    · exact h m h1
    · exact hrest m h1
  · intro db channelId msgId senderId username content dist embedResult vectorOk genResult
      insightGen b i q h
    unfold handle_thread_message
    cases hfind : db.reports.find? (fun r => r.thread_id == channelId) with
    | none => exact h
    | some report =>
      cases genResult with
      | error e =>
        exact save_message_rolesOk _ _ _ _ _ _ _ _ _ _
          (rolesOk_of_messages_eq (ensure_user_messages db senderId username) h) (Or.inl rfl)
      | ok g =>
        refine followups_rolesOk _ _ _ _ _ _ _ ?_
        exact save_message_rolesOk _ _ _ _ _ _ _ _ _ _
          (save_message_rolesOk _ _ _ _ _ _ _ _ _ _
            (rolesOk_of_messages_eq (ensure_user_messages db senderId username) h)
            (Or.inl rfl)) (Or.inr rfl)

/-- Witness for C7: a concrete upload into the empty database yields only
rows with role user or bot. -/
theorem C7_roles_amended_witness :
    rolesOk (process_pdf_upload dbEmptyEx 7 "alice" "r.pdf" 60 42 61 ("gut data".data)
      embOkEx [] []).1 :=
  C7_roles_amended.1 dbEmptyEx 7 "alice" "r.pdf" 60 42 61 ("gut data".data) embOkEx [] []
    (fun m hm => absurd hm (List.not_mem_nil m))

/-- C7 counterexample: the bot reply saved by a concrete upload carries role
bot, which is neither user nor assistant, so the persisted role set is
user-and-bot, not user-and-assistant. -/
theorem C7_roles_counterexample :
    ∃ m ∈ (process_pdf_upload dbEmptyEx 7 "alice" "r.pdf" 60 42 61 ("gut data".data)
        embOkEx [] []).1.messages,
      m.role ≠ "user" ∧ m.role ≠ "assistant" := by decide

/-! ## C3: retrieval fallback behavior -/

/-- C3 (amended): retrieval never raises, but a failing embedding call is
absorbed by the outer handler, which returns the empty list rather than any
chunks; the first-k index-order fallback applies only when the embedding
succeeds and the vector search is unavailable, and then the result is the
contents of min(k, n) stored chunks of the report in ascending chunk_idx
order. -/
theorem C3_retrieval_amended :
    (∀ (dist : List Rat → List Rat → Rat) (msg : String) (vectorOk : Bool) (db : DBState)
        (rid : Nat), find_relevant_chunks dist (Except.error msg) vectorOk db rid = []) ∧
    (∀ (dist : List Rat → List Rat → Rat) (q : List Rat) (db : DBState) (rid : Nat),
      ∃ cs : List ChunkRec,
        find_relevant_chunks dist (Except.ok q) false db rid = cs.map ChunkRec.content ∧
        cs.length = min MAX_CHUNKS_PER_QUERY
          (db.chunks.filter (fun ch => ch.report_id == rid)).length ∧
        cs.Pairwise (fun a b => a.chunk_idx ≤ b.chunk_idx) ∧
        ∀ c ∈ cs, c ∈ db.chunks ∧ c.report_id = rid) := by
  constructor
  · intro dist msg vectorOk db rid
    rfl
  · intro dist q db rid
    refine ⟨(List.insertionSort (fun a b => a.chunk_idx ≤ b.chunk_idx)
        (db.chunks.filter (fun ch => ch.report_id == rid))).take MAX_CHUNKS_PER_QUERY,
      ?_, ?_, ?_, ?_⟩
    · rfl
    · rw [List.length_take, List.length_insertionSort]
    · exact List.Pairwise.sublist (List.take_sublist _ _) (List.sorted_insertionSort _ _)
    · intro c hc
      have h1 : c ∈ List.insertionSort (fun a b => a.chunk_idx ≤ b.chunk_idx)
          (db.chunks.filter (fun ch => ch.report_id == rid)) :=
        (List.take_sublist _ _).subset hc
      have h2 : c ∈ db.chunks.filter (fun ch => ch.report_id == rid) :=
        (List.perm_insertionSort _ _).mem_iff.mp h1
      have h3 := List.mem_filter.mp h2
      exact ⟨h3.1, by simpa using h3.2⟩

/-- Witness for C3 at a concrete failing embedding over a stocked
database. -/
theorem C3_retrieval_amended_witness :
    find_relevant_chunks distEx (Except.error "embedding down") true dbC3 1 = [] :=
  C3_retrieval_amended.1 distEx "embedding down" true dbC3 1

/-- C3 counterexample: report 1 has two stored chunks, yet when the
embedding collaborator fails retrieval returns the empty list, whose length
0 differs from min(k, 2) = 2, so the first chunks are not returned. -/
theorem C3_retrieval_counterexample :
    find_relevant_chunks distEx (Except.error "embedding down") true dbC3 1 = [] ∧
    (find_relevant_chunks distEx (Except.error "embedding down") true dbC3 1).length
      ≠ min MAX_CHUNKS_PER_QUERY (dbC3.chunks.filter (fun ch => ch.report_id == 1)).length := by
  constructor
  · rfl
  · decide

/-! ## C4: the response segmenter at the limit boundary -/

theorem not_mem_aC4 (c : Char) (hc : c ≠ 'a') : c ∉ aC4 :=
  fun h => hc (List.eq_of_mem_replicate h)

theorem aC4_cons : aC4 = 'a' :: List.replicate 2000 'a' := rfl

theorem splitOnSepAux_not_mem (x : Char) (ys : List Char) (f : Nat) :
    ∀ l : List Char, x ∉ l → splitOnSepAux (x :: ys) f l = [l] := by
  induction f with
  | zero => intro l _; rfl
  | succ n ih =>
    intro l h
    cases l with
    | nil => rfl
    | cons c rest =>
      have hpre : ¬ ((x :: ys).isPrefixOf (c :: rest) = true) := by
        intro hp
        simp only [List.isPrefixOf, Bool.and_eq_true, beq_iff_eq] at hp
        exact h (hp.1 ▸ List.mem_cons_self c rest)
      simp only [splitOnSepAux, if_neg hpre]
      rw [ih rest (fun hm => h (List.mem_cons_of_mem c hm))]

theorem dropWhile_cons_false (p : Char → Bool) (c : Char) (l : List Char) (h : p c = false) :
    (c :: l).dropWhile p = c :: l := by
  simp [List.dropWhile_cons, h]

theorem pyStrip_aC4 : pyStrip (aC4 ++ (". ".data)) = aC4 ++ ['.'] := by
  unfold pyStrip
  have hfront : (aC4 ++ (". ".data)).dropWhile isPySpace = aC4 ++ (". ".data) := by
    rw [aC4_cons, List.cons_append]
    exact dropWhile_cons_false _ _ _ (by decide)
  rw [hfront, List.reverse_append]
  have hrev : ((". ".data).reverse : List Char) = ' ' :: '.' :: [] := rfl
  rw [hrev, List.cons_append, List.cons_append, List.nil_append]
  rw [List.dropWhile_cons, if_pos (by decide), List.dropWhile_cons, if_neg (by decide)]
  rw [List.reverse_cons, List.reverse_reverse]

theorem aC4_length : aC4.length = 2001 := by
  simp [aC4]

theorem segFlush_start : segFlush ⟨[], []⟩ aC4.length = ⟨[], []⟩ := by
  unfold segFlush
  rw [if_pos]
  · rw [if_neg]
    simp
  · simp only [aC4_length]
    omega

theorem segC4_long : segmentLong aC4 = [aC4 ++ ['.']] := by
  have hsep1 : ("\n\n".data : List Char) = '\n' :: ['\n'] := rfl
  have hsep2 : ((". ".data) : List Char) = '.' :: [' '] := rfl
  have h1 : splitOnSep ("\n\n".data) aC4 = [aC4] := by
    unfold splitOnSep
    rw [hsep1]
    exact splitOnSepAux_not_mem '\n' ['\n'] _ aC4 (not_mem_aC4 '\n' (by decide))
  have h2 : splitOnSep ((". ".data)) aC4 = [aC4] := by
    unfold splitOnSep
    rw [hsep2]
    exact splitOnSepAux_not_mem '.' [' '] _ aC4 (not_mem_aC4 '.' (by decide))
  have hsent : segSentenceStep ⟨[], []⟩ aC4 = ⟨[], aC4 ++ (". ".data)⟩ := by
    simp only [segSentenceStep]
    rw [segFlush_start]
    rfl
  have hpara : segParaStep ⟨[], []⟩ aC4 = ⟨[], aC4 ++ (". ".data)⟩ := by
    simp only [segParaStep]
    rw [if_pos (by simp only [aC4_length]; omega)]
    rw [h2, List.foldl_cons, List.foldl_nil, segFlush_start]
    exact hsent
  simp only [segmentLong]
  rw [h1, List.foldl_cons, List.foldl_nil, hpara]
  have hcur : (⟨[], aC4 ++ (". ".data)⟩ : SegState).current = aC4 ++ (". ".data) := rfl
  have hch : (⟨[], aC4 ++ (". ".data)⟩ : SegState).chunks = ([] : List (List Char)) := rfl
  rw [hcur, hch, pyStrip_aC4]
  rw [if_pos (by simp)]
  rw [List.nil_append]

/-- C4: evaluation of the segmenter at the failing input: a 2001-character
response with no paragraph break and no sentence separator comes back as a
single segment of 2002 characters (the original text with a period appended
by the sentence re-join), exceeding the 2000-character transport limit,
instead of the two within-limit segments the claim requires. -/
theorem C4_segmenter_limit_eval :
    segmentResponse aC4 = [aC4 ++ ['.']] ∧
    (segmentResponse aC4).length = 1 ∧
    ∀ s ∈ segmentResponse aC4, s.length = 2002 := by
  have hmain : segmentResponse aC4 = [aC4 ++ ['.']] := by
    simp only [segmentResponse]
    rw [if_neg (by simp only [aC4_length]; omega)]
    rw [segC4_long]
    rw [if_neg (by simp)]
  refine ⟨hmain, by rw [hmain]; rfl, ?_⟩
  intro s hs
  rw [hmain] at hs
  rw [List.mem_singleton.mp hs]
  simp [aC4_length]

/-- Witness for C4: the single segment produced at the failing input indeed
has 2002 characters. -/
theorem C4_segmenter_limit_eval_witness : (aC4 ++ ['.']).length = 2002 :=
  C4_segmenter_limit_eval.2.2 (aC4 ++ ['.'])
    (C4_segmenter_limit_eval.1 ▸ List.mem_singleton.mpr rfl)

/-- Witness for C10 at a concrete raw text containing a newline. -/
theorem C10_no_newline_reaches_chunker_witness :
    '\n' ∉ clean_text ("a\nb".data) ∧
      chunk_text (clean_text ("a\nb".data)) = chunkTextNoPara (clean_text ("a\nb".data)) :=
  C10_no_newline_reaches_chunker ("a\nb".data)
